import Mathlib

/-!
Verification of the foam graph model (workspace reference resolution) and the
backlinks tree-view feature.

The repository ships the workspace test suite and the backlinks feature source.
The `FoamWorkspace` implementation itself (src/model/workspace) is not part of
the source tree, so it is modelled here from the specification's component
design (reference classifier, link resolver, connection index, placeholder
manager, change monitor) and validated against the behaviour pinned down by the
shipped test suite.  The backlinks feature (`backlinks.ts`) is embedded from
its source.
-/

namespace Foam

/-- Document position of a raw link: line and column of its start, as produced
by the upstream parser.  Positions are used only for ordering and presentation,
never for resolution. -/
structure LinkPos where
  line : Int
  col : Int
  deriving DecidableEq, Repr

/-- Identity of a resource: a scheme tag plus a path.  Two identities are equal
iff scheme and path agree.  The reserved scheme `placeholder` identifies
synthetic nodes; its path holds the original unresolved reference string. -/
structure URI where
  scheme : String
  path : String
  deriving DecidableEq, Repr

/-- Identity of an on-disk resource. -/
def fileUri (p : String) : URI := ⟨"file", p⟩

/-- Identity of a synthetic placeholder node wrapping an unresolved reference. -/
def placeholderUri (p : String) : URI := ⟨"placeholder", p⟩

/-- A raw link as parsed out of a note: either a wikilink carrying a slug or a
direct (markdown) link carrying a target path text and a label. -/
inductive RawLink where
  | wikilink (slug : String) (pos : LinkPos)
  | direct (target : String) (label : String) (pos : LinkPos)
  deriving DecidableEq, Repr

/-- A wikilink definition scoped to the owning note: maps a label to an
explicit url. -/
structure LinkDef where
  label : String
  url : String
  deriving DecidableEq, Repr

/-- Payload of a resource: a note (title, raw links, definitions), an
attachment, or a synthetic placeholder. -/
inductive ResData where
  | note (title : String) (links : List RawLink) (defs : List LinkDef)
  | attachment
  | placeholder
  deriving DecidableEq, Repr

/-- A resource of the workspace: an identity plus its payload. -/
structure Resource where
  uri : URI
  data : ResData
  deriving DecidableEq, Repr

/-- Raw links owned by a resource (non-notes own none). -/
def Resource.links (r : Resource) : List RawLink :=
  match r.data with
  | .note _ ls _ => ls
  | _ => []

/-- Wikilink definitions owned by a resource (non-notes own none). -/
def Resource.defs (r : Resource) : List LinkDef :=
  match r.data with
  | .note _ _ ds => ds
  | _ => []

/-- True for real (non-placeholder) resources. -/
def Resource.isReal (r : Resource) : Bool :=
  match r.data with
  | .placeholder => false
  | _ => true

/-- True exactly for notes. -/
def Resource.isNote (r : Resource) : Bool :=
  match r.data with
  | .note _ _ _ => true
  | _ => false

/-- Title of a note (empty for non-notes). -/
def Resource.title (r : Resource) : String :=
  match r.data with
  | .note t _ _ => t
  | _ => ""

/-! ### Path utilities

String paths are processed over their underlying character lists so that every
operation reduces inside the kernel. -/

/-- Boolean test that the first character list is a prefix of the second. -/
def startsList : List Char → List Char → Bool
  | [], _ => true
  | _ :: _, [] => false
  | a :: as, b :: bs => a == b && startsList as bs

/-- Split a character list on `/`, accumulating the current segment. -/
def splitSlashGo : List Char → List Char → List String
  | acc, [] => [String.mk acc.reverse]
  | acc, c :: cs =>
    if c == '/' then String.mk acc.reverse :: splitSlashGo [] cs
    else splitSlashGo (c :: acc) cs

/-- Non-empty path segments of a path string. -/
def segments (p : String) : List String :=
  (splitSlashGo [] p.data).filter (fun s => !(s == ""))

/-- Whether a segment contains a `.` (i.e. carries a file extension). -/
def hasDot (s : String) : Bool := s.data.any (fun c => c == '.')

/-- Suffix match on the final segment: exact equality, or — when the slug
segment carries no extension — the candidate segment is the slug followed by
`.` and any extension. -/
def lastSegMatch (cand slug : String) : Bool :=
  cand == slug || (!hasDot slug && startsList (slug.data ++ ['.']) cand.data)

/-- Segment-wise comparison of two equal-length segment lists where the final
pair is compared via `lastSegMatch`. -/
def segsMatch : List String → List String → Bool
  | [], _ => false
  | _, [] => false
  | [c], [g] => lastSegMatch c g
  | c :: cs, g :: gs => c == g && segsMatch cs gs

/-- Suffix match of a bare-key slug against a candidate path: the slug's
segments must equal the trailing segments of the candidate, the final segment
up to an optional file extension. -/
def suffixMatch (slug candPath : String) : Bool :=
  let gs := segments slug
  let cs := segments candPath
  !gs.isEmpty && decide (gs.length ≤ cs.length) &&
    segsMatch (cs.drop (cs.length - gs.length)) gs

/-- Resolve `.` and `..` segments of a reference against base segments. -/
def normSegs : List String → List String → List String
  | acc, [] => acc
  | acc, "." :: rest => normSegs acc rest
  | acc, ".." :: rest => normSegs acc.dropLast rest
  | acc, s :: rest => normSegs (acc ++ [s]) rest

/-- Join segments with `/`. -/
def joinSegs : List String → String
  | [] => ""
  | [s] => s
  | s :: rest => s ++ "/" ++ joinSegs rest

/-- Join segments into an absolute path. -/
def joinAbs (segs : List String) : String := "/" ++ joinSegs segs

/-- Segments of the directory containing a path. -/
def dirSegsOf (p : String) : List String := (segments p).dropLast

/-- Final segment of a path (empty when there is none). -/
def lastSegOf (p : String) : String := ((segments p).getLast?).getD ""

/-- Kernel-reducible character comparison by code point. -/
def chLt (a b : Char) : Bool := decide (a.toNat < b.toNat)

/-- Kernel-reducible lexicographic comparison of character lists. -/
def lexLt : List Char → List Char → Bool
  | [], [] => false
  | [], _ :: _ => true
  | _ :: _, [] => false
  | a :: as, b :: bs => chLt a b || (a == b && lexLt as bs)

/-- Kernel-reducible lexicographic (ascending) comparison of strings. -/
def strLt (a b : String) : Bool := lexLt a.data b.data

/-! ### Reference classifier -/

/-- Kind of a raw reference string. -/
inductive RefKind where
  | absolute
  | relative
  | key
  deriving DecidableEq, Repr

/-- Modelled from the spec: the reference classifier of the missing
`src/model/workspace` module (`getReferenceType`).  A string beginning with a
path separator is an absolute path, one beginning with `./` or `../` is a
relative path, and any other string is a bare key (wikilink slug).  The spec's
fourth kind, `uri`, applies only to references that are already identities and
never arises for the string references carried by raw links. -/
def classify (ref : String) : RefKind :=
  if startsList ['/'] ref.data then .absolute
  else if startsList ['.', '/'] ref.data then .relative
  else if startsList ['.', '.', '/'] ref.data then .relative
  else .key

/-! ### Link resolver -/

/-- First definition of the note whose label equals the slug, if any. -/
def lookupDef (src : Resource) (slug : String) : Option String :=
  ((src.defs).find? (fun d => d.label == slug)).map (fun d => d.url)

/-- Modelled from the spec: path lookup of the missing link resolver.  Find a
real resource at exactly the resolved path; when the path carries no file
extension, additionally try the default note extension `.md`. -/
def lookupPath (np : List Resource) (p : String) : Option URI :=
  match np.find? (fun r => r.uri.path == p) with
  | some r => some r.uri
  | none =>
    if hasDot (lastSegOf p) then none
    else (np.find? (fun r => r.uri.path == p ++ ".md")).map Resource.uri

/-- Fold selecting the candidate with the lexicographically smallest path. -/
def pickMin (u : URI) (us : List URI) : URI :=
  us.foldl (fun best x => if strLt x.path best.path then x else best) u

/-- Modelled from the spec: bare-key resolution of the missing link resolver.
Gather every real resource whose path suffix-matches the slug; with no
candidate the result is a placeholder identity whose path is the slug exactly
as given; otherwise the lexicographically smallest candidate path wins — a
total, deterministic, insertion-order-independent tie-break. -/
def resolveKey (np : List Resource) (slug : String) : URI :=
  match (np.filter (fun r => suffixMatch slug r.uri.path)).map Resource.uri with
  | [] => placeholderUri slug
  | u :: us => pickMin u us

/-- The absolute path a reference resolves to against base segments. -/
def resolvedPathOf (base : List String) (ref : String) : String :=
  joinAbs (normSegs base (segments ref))

/-- Modelled from the spec: path-reference resolution of the missing link
resolver.  Resolve the reference against the base segments to an absolute
path; return the resource at that path if one exists, else a placeholder at
the resolved path. -/
def resolvePathRef (np : List Resource) (base : List String) (ref : String) : URI :=
  match lookupPath np (resolvedPathOf base ref) with
  | some u => u
  | none => placeholderUri (resolvedPathOf base ref)

/-- Modelled from the spec: resolution of a (possibly definition-substituted)
reference string, dispatching on its kind.  Relative paths resolve against the
source resource's containing directory, absolute paths against the root. -/
def resolveRef (np : List Resource) (src : Resource) (ref : String) : URI :=
  match classify ref with
  | .absolute => resolvePathRef np [] ref
  | .relative => resolvePathRef np (dirSegsOf src.uri.path) ref
  | .key => resolveKey np ref

/-- The base segments a path reference of the given kind resolves against:
the workspace root for an absolute path, the source resource's containing
directory for a relative path (a bare key resolves by suffix match, not
against a base). -/
def refBase (src : Resource) (k : RefKind) : List String :=
  match k with
  | .absolute => []
  | .relative => dirSegsOf src.uri.path
  | .key => []

/-- Modelled from the spec: the effective reference string of a wikilink — a
definition whose label equals the slug substitutes its url (re-classified
downstream, so a definition can turn a wikilink into a path reference);
otherwise the slug itself. -/
def wikiRef (src : Resource) (slug : String) : String :=
  match lookupDef src slug with
  | some url => url
  | none => slug

/-- Modelled from the spec: the link resolver of the missing
`src/model/workspace` module.  A wikilink resolves its effective reference
(definition-substituted slug); a direct link resolves its target text.
Total: always returns a real resource's identity or a placeholder identity. -/
def resolve (np : List Resource) (src : Resource) (l : RawLink) : URI :=
  match l with
  | .direct t _ _ => resolveRef np src t
  | .wikilink slug _ => resolveRef np src (wikiRef src slug)

/-! ### Workspace: resource store and connection index -/

/-- A directed edge of the graph, produced by resolving one raw link. -/
structure Connection where
  source : URI
  target : URI
  deriving DecidableEq, Repr

/-- Modelled from the spec: the workspace state of the missing
`src/model/workspace` module — the resource store plus the derived connection
index. -/
structure FoamWorkspace where
  resources : List Resource
  connections : List Connection
  deriving DecidableEq, Repr

/-- The empty workspace. -/
def emptyWs : FoamWorkspace := ⟨[], []⟩

/-- The real (non-placeholder) resources of a store, in store order. -/
def npRes (l : List Resource) : List Resource := l.filter Resource.isReal

/-- Modelled from the spec: `set` of the missing resource store — an
idempotent upsert keyed by identity; the store holds at most one resource per
identity.  Connections are untouched: they change only through resolution. -/
def setW (ws : FoamWorkspace) (r : Resource) : FoamWorkspace :=
  { ws with resources := ws.resources.filter (fun x => !(x.uri == r.uri)) ++ [r] }

/-- Modelled from the spec: `delete` of the missing resource store — removes
the resource at the identity (no-op when absent); connections untouched. -/
def deleteW (ws : FoamWorkspace) (u : URI) : FoamWorkspace :=
  { ws with resources := ws.resources.filter (fun x => !(x.uri == u)) }

/-- Modelled from the spec: `find` of the missing resource store — total
lookup by identity, `none` when absent. -/
def wsFind (ws : FoamWorkspace) (u : URI) : Option Resource :=
  ws.resources.find? (fun r => r.uri == u)

/-- Failure raised by `get` on an absent identity. -/
inductive WsError where
  | notFound
  deriving DecidableEq, Repr

/-- Modelled from the spec: `get` of the missing resource store — fails with
`NotFound` when the identity is absent. -/
def wsGet (ws : FoamWorkspace) (u : URI) : Except WsError Resource :=
  match wsFind ws u with
  | some r => .ok r
  | none => .error .notFound

/-- Modelled from the spec: `exists` of the missing resource store. -/
def wsExists (ws : FoamWorkspace) (u : URI) : Bool := (wsFind ws u).isSome

/-- Whether `get` succeeded. -/
def isOkE (e : Except WsError Resource) : Bool :=
  match e with
  | .ok _ => true
  | .error _ => false

/-- Connections obtained by resolving, for every real resource in store order,
each of its raw links in document order. -/
def connsOf (np : List Resource) : List Connection :=
  np.flatMap (fun r => r.links.map (fun l => ⟨r.uri, resolve np r l⟩))

/-- Duplicate removal keeping first occurrences. -/
def dedupKeys {α : Type} [DecidableEq α] : List α → List α
  | [] => []
  | a :: rest => a :: (dedupKeys rest).filter (fun b => !(b == a))

/-- The placeholder identities actually referenced by a connection set. -/
def phTargets (cs : List Connection) : List URI :=
  dedupKeys (cs.filterMap (fun c =>
    if c.target.scheme == "placeholder" then some c.target else none))

/-- Modelled from the spec: `resolveLinks` / `rebuild` of the missing
`src/model/workspace` module — the full recompute.  Every real resource's raw
links are resolved into connections; the placeholder manager then retires
every placeholder with zero incident connections and inserts a placeholder
resource for every placeholder identity that is referenced, atomically
replacing the previous connection and placeholder sets. -/
def resolveLinksState (ws : FoamWorkspace) : FoamWorkspace :=
  let np := npRes ws.resources
  let cs := connsOf np
  ⟨np ++ (phTargets cs).map (fun u => ⟨u, .placeholder⟩), cs⟩

/-- Modelled from the spec: `links_from` — targets of the connections whose
source is the given identity, in resolution order. -/
def getLinks (ws : FoamWorkspace) (u : URI) : List URI :=
  (ws.connections.filter (fun c => c.source == u)).map Connection.target

/-- Modelled from the spec: `links_to` — sources of the connections whose
target is the given identity. -/
def getBacklinks (ws : FoamWorkspace) (u : URI) : List URI :=
  (ws.connections.filter (fun c => c.target == u)).map Connection.source

/-- Modelled from the spec: `incident` — all connections where the identity is
source or target. -/
def getConnectionsW (ws : FoamWorkspace) (u : URI) : List Connection :=
  ws.connections.filter (fun c => c.source == u || c.target == u)

/-- Modelled from the spec: `all` — the full connection set in rebuild order. -/
def getAllConnections (ws : FoamWorkspace) : List Connection := ws.connections

/-- The placeholder resources currently held by the store. -/
def placeholdersOf (ws : FoamWorkspace) : List Resource :=
  ws.resources.filter (fun r => !r.isReal)

/-! ### Mutations and the change monitor -/

/-- A store mutation issued by the external document producer. -/
inductive Mut where
  | setR (r : Resource)
  | delR (u : URI)
  deriving DecidableEq, Repr

/-- Apply one mutation without any rebuild (unmonitored mode). -/
def applyMut (ws : FoamWorkspace) (m : Mut) : FoamWorkspace :=
  match m with
  | .setR r => setW ws r
  | .delR u => deleteW ws u

/-- Modelled from the spec: one step of the change monitor — every store
mutation synchronously triggers a full rebuild. -/
def monitoredStep (ws : FoamWorkspace) (m : Mut) : FoamWorkspace :=
  resolveLinksState (applyMut ws m)

/-- The effect of a mutation on the real (non-placeholder) part of a store:
used to state that mutations act on the real resources independently of any
placeholders a rebuild may have materialised. -/
def applyMutNp (l : List Resource) : Mut → List Resource
  | .setR r => l.filter (fun x => !(x.uri == r.uri)) ++ (if r.isReal then [r] else [])
  | .delR u => l.filter (fun x => !(x.uri == u))

/-! ### Test-data helpers mirroring `createTestNote` / `createAttachment` -/

/-- A note at a path, with links and definitions (title defaults to the path). -/
def mkNote (p : String) (ls : List RawLink) (ds : List LinkDef) : Resource :=
  ⟨fileUri p, .note p ls ds⟩

/-- An attachment at a path. -/
def mkAtt (p : String) : Resource := ⟨fileUri p, .attachment⟩

/-- A wikilink raw link at a default position. -/
def wl (s : String) : RawLink := .wikilink s ⟨1, 1⟩

/-- A direct raw link at a default position. -/
def dl (t : String) : RawLink := .direct t "" ⟨1, 1⟩

/-! ### Backlinks tree view (embedded from
`src/packages/foam-vscode/src/features/backlinks.ts`)

The provider consumes the workspace's connections, which in the feature source
carry the originating raw link; they are embedded as `ConnB`, a connection
together with the link's start position. -/

/-- A connection as consumed by the backlinks provider: source, target and the
raw link's start position. -/
structure ConnB where
  source : URI
  target : URI
  pos : LinkPos
  deriving DecidableEq, Repr

/-- The comparator `isBefore` of `backlinks.ts`:
`a.start.column - b.start.column || a.start.line - b.start.line` — the column
difference when it is non-zero, otherwise the line difference. -/
def isBefore (a b : LinkPos) : Int :=
  if a.col - b.col == 0 then a.line - b.line else a.col - b.col

/-- Stable insertion of an element into a sorted list: the element is placed
before the first entry not strictly before it, as a stable comparator sort
does. -/
def insertBy {α : Type} (before : α → α → Bool) (a : α) : List α → List α
  | [] => [a]
  | b :: bs => if before b a then b :: insertBy before a bs else a :: b :: bs

/-- Stable comparator sort (JavaScript `Array.prototype.sort` with a consistent
comparator). -/
def sortBy {α : Type} (before : α → α → Bool) (l : List α) : List α :=
  l.foldr (insertBy before) []

/-- The per-group link ordering of `backlinks.ts`: `a` before `b` when
`isBefore` of their positions is negative. -/
def byPos (a b : ConnB) : Bool := decide (isBefore a.pos b.pos < 0)

/-- The top-level branch of `BacklinksTreeDataProvider.getChildren` (no parent
item): with the target unset or rejected by the data store's `isMatch` it
returns the empty list; otherwise it takes the connections incident to the
target whose target is the target URI, groups them by source path (first
occurrence order, as lodash `groupBy` with string keys), maps each group to
its source resource, keeps notes, sorts them by title, and pairs each note
with its group sorted by `isBefore` on the links' positions.  The resource
lookup embeds `workspace.get` as a total `find?` (sources of connections exist
in the workspace). -/
def backlinkGroups (resources : List Resource) (conns : List ConnB)
    (target : Option URI) (isMatch : URI → Bool) : List (Resource × List ConnB) :=
  match target with
  | none => []
  | some uri =>
    if !isMatch uri then []
    else
      let incident := conns.filter (fun c => c.source == uri || c.target == uri)
      let backs := incident.filter (fun c => c.target == uri)
      let keys := dedupKeys (backs.map (fun c => c.source.path))
      let reps := keys.filterMap (fun k =>
        ((backs.find? (fun c => c.source.path == k)).map (fun c => c.source)).bind
          (fun su => resources.find? (fun r => r.uri == su)))
      let notes := reps.filter Resource.isNote
      let sorted := sortBy (fun a b => strLt a.title b.title) notes
      sorted.map (fun n =>
        (n, sortBy byPos (backs.filter (fun c => c.source.path == n.uri.path))))

/-! ### Concrete scenarios from the shipped test suite -/

/-- Note A of the ambiguity scenario: `/path/to/page-a.md` whose only raw link
is the bare wikilink slug `page-b`. -/
def c1noteA : Resource := mkNote "/path/to/page-a.md" [wl "page-b"] []

/-- The ambiguity scenario after a full rebuild: A plus notes B1 at
`/path/to/another/page-b.md` and B2 at `/path/to/more/page-b.md`. -/
def c1ws : FoamWorkspace :=
  resolveLinksState
    (setW (setW (setW emptyWs c1noteA)
      (mkNote "/path/to/another/page-b.md" [] []))
      (mkNote "/path/to/more/page-b.md" [] []))

/-- The contrast scenario: A's link is the path-qualified slug
`./more/page-b`, over the same B1/B2 stores. -/
def c1wsQ : FoamWorkspace :=
  resolveLinksState
    (setW (setW (setW emptyWs (mkNote "/path/to/page-a.md" [wl "./more/page-b"] []))
      (mkNote "/path/to/another/page-b.md" [] []))
      (mkNote "/path/to/more/page-b.md" [] []))

/-- Source note of the backlinks-ordering scenario. -/
def c2src : Resource := mkNote "/s.md" [] []

/-- Two backlinks from `/s.md` to `/t.md`, in document order: one at line 1
column 5 and one at line 2 column 1. -/
def c2conns : List ConnB :=
  [⟨fileUri "/s.md", fileUri "/t.md", ⟨1, 5⟩⟩,
   ⟨fileUri "/s.md", fileUri "/t.md", ⟨2, 1⟩⟩]

/-- Store of the dangling-wikilink scenario: a single note at
`/somewhere/page-a.md` whose only link is the unresolved slug `page-b`. -/
def c5store : FoamWorkspace :=
  setW emptyWs (mkNote "/somewhere/page-a.md" [wl "page-b"] [])

/-- The connection produced by the dangling-wikilink scenario. -/
def c5conn : Connection :=
  ⟨fileUri "/somewhere/page-a.md", placeholderUri "page-b"⟩

/-- Placeholder-retirement scenario: a note with a direct link to a missing
file is rebuilt (materialising a placeholder), then replaced by a version
with no links. -/
def c6store : FoamWorkspace :=
  setW
    (resolveLinksState
      (setW emptyWs (mkNote "/path/to/page-a.md" [dl "/path/to/another/page-b.md"] [])))
    (mkNote "/path/to/page-a.md" [] [])

/-- The placeholder identity of the retirement scenario. -/
def c6ph : URI := placeholderUri "/path/to/another/page-b.md"

/-- The note of the definition-override scenario: `/somewhere/from/page-a.md`
with wikilink `page-b` and a definition mapping `page-b` to
`../to/page-b.md`. -/
def c7note : Resource :=
  mkNote "/somewhere/from/page-a.md" [wl "page-b"] [⟨"page-b", "../to/page-b.md"⟩]

/-- The real resources of the definition-override scenario. -/
def c7np : List Resource := [c7note, mkNote "/somewhere/to/page-b.md" [] []]

/-- The note of the definition-to-non-existing scenario:
`/somewhere/page-a.md` with wikilinks `page-b` and `page-c` and definitions
mapping `page-b` to the relative url `./page-b.md` and `page-c` to the
absolute url `/path/to/page-c.md`. -/
def c7noteAbs : Resource :=
  mkNote "/somewhere/page-a.md" [wl "page-b", wl "page-c"]
    [⟨"page-b", "./page-b.md"⟩, ⟨"page-c", "/path/to/page-c.md"⟩]

/-- The real resources of the definition-to-non-existing scenario: the
defining note plus an unrelated note — nothing sits at either definition's
resolved path. -/
def c7npAbs : List Resource :=
  [c7noteAbs, mkNote "/different/location/for/note-b.md" [] []]

/-- Store of the absent-identity scenario: one note at `/path/to/page-a.md`. -/
def c8store : FoamWorkspace := setW emptyWs (mkNote "/path/to/page-a.md" [] [])

/-- The absent identity queried in the absent-identity scenario. -/
def c8uri : URI := fileUri "/path/to/another/page-b.md"

/-! ### Model validation against the shipped test suite

The workspace model is spec-modelled (its implementation is not in the source
tree); these theorems check it against the expectations the repository's own
test file pins down. -/

/-- The model reproduces `Wikilinks / Can be defined with basename, relative
path, absolute path, extension`: slugs `page-b`, `../another/page-c.md`,
`/absolute/path/page-d`, `page-e.md` and `placeholder-test` resolve to the
expected targets, the last to a placeholder. -/
theorem model_wikilink_forms :
    getLinks
      (resolveLinksState
        (setW (setW (setW (setW (setW emptyWs
          (mkNote "/path/to/page-a.md"
            [wl "page-b", wl "../another/page-c.md", wl "/absolute/path/page-d",
             wl "page-e.md", wl "placeholder-test"] []))
          (mkNote "/somewhere/page-b.md" [] []))
          (mkNote "/path/another/page-c.md" [] []))
          (mkNote "/absolute/path/page-d.md" [] []))
          (mkNote "/absolute/path/page-e.md" [] [])))
      (fileUri "/path/to/page-a.md") =
    [fileUri "/somewhere/page-b.md", fileUri "/path/another/page-c.md",
     fileUri "/absolute/path/page-d.md", fileUri "/absolute/path/page-e.md",
     placeholderUri "placeholder-test"] := by decide

/-- The model reproduces `markdown direct links / Support absolute and
relative path`, including the `getConnections` incident query. -/
theorem model_direct_links :
    getConnectionsW
      (resolveLinksState
        (setW (setW (setW emptyWs
          (mkNote "/path/to/page-a.md"
            [dl "./another/page-b.md", dl "more/page-c.md"] []))
          (mkNote "/path/to/another/page-b.md" [dl "../../to/page-a.md"] []))
          (mkNote "/path/to/more/page-c.md" [] [])))
      (fileUri "/path/to/page-a.md") =
    [⟨fileUri "/path/to/page-a.md", fileUri "/path/to/another/page-b.md"⟩,
     ⟨fileUri "/path/to/page-a.md", fileUri "/path/to/more/page-c.md"⟩,
     ⟨fileUri "/path/to/another/page-b.md", fileUri "/path/to/page-a.md"⟩] := by
  decide

/-- The model reproduces `Updating workspace happy path / Adding note should
replace placeholder for wikilinks`: before the note exists the slug resolves
to a placeholder held by the store; after inserting the note and rebuilding,
the placeholder is gone and the note is present. -/
theorem model_placeholder_replaced :
    getLinks (resolveLinksState c5store) (fileUri "/somewhere/page-a.md") =
      [placeholderUri "page-b"] ∧
    wsExists (resolveLinksState c5store) (placeholderUri "page-b") = true ∧
    wsExists
      (resolveLinksState
        (setW (resolveLinksState c5store) (mkNote "/somewhere/own/page-b.md" [] [])))
      (placeholderUri "page-b") = false ∧
    getLinks
      (resolveLinksState
        (setW (resolveLinksState c5store) (mkNote "/somewhere/own/page-b.md" [] [])))
      (fileUri "/somewhere/page-a.md") = [fileUri "/somewhere/own/page-b.md"] := by
  decide

/-- The model reproduces `Placeholders / Treats wikilink with definition to
non-existing file as placeholders`: definitions to `./page-b.md` and
`/path/to/page-c.md` both yield placeholders at the resolved paths. -/
theorem model_definition_placeholders :
    getAllConnections
      (resolveLinksState
        (setW (setW emptyWs
          (mkNote "/somewhere/page-a.md" [wl "page-b", wl "page-c"]
            [⟨"page-b", "./page-b.md"⟩, ⟨"page-c", "/path/to/page-c.md"⟩]))
          (mkNote "/different/location/for/note-b.md" [] []))) =
    [⟨fileUri "/somewhere/page-a.md", placeholderUri "/somewhere/page-b.md"⟩,
     ⟨fileUri "/somewhere/page-a.md", placeholderUri "/path/to/page-c.md"⟩] := by
  decide

/-- The model reproduces the reference-type test: `/hello` is absolute,
`../hello` and `./hello` are relative, `hello` is a key. -/
theorem model_reference_types :
    classify "/hello" = RefKind.absolute ∧
    classify "/hello/there" = RefKind.absolute ∧
    classify "../hello" = RefKind.relative ∧
    classify "./hello" = RefKind.relative ∧
    classify "./hello/there" = RefKind.relative ∧
    classify "hello" = RefKind.key := by decide

/-! ### Helper lemmas -/

/-- Duplicate removal does not change membership. -/
theorem mem_dedupKeys {α : Type} [DecidableEq α] {x : α} :
    ∀ {l : List α}, x ∈ dedupKeys l ↔ x ∈ l := by
  intro l
  induction l with
  | nil => simp [dedupKeys]
  | cons a rest ih =>
    by_cases hx : x = a
    · simp [dedupKeys, hx]
    · simp [dedupKeys, hx, List.mem_filter, ih]

/-- The minimum-path fold returns its seed or an element of the list. -/
theorem pickMin_mem (us : List URI) :
    ∀ u : URI, pickMin u us = u ∨ pickMin u us ∈ us := by
  induction us with
  | nil => exact fun _ => Or.inl rfl
  | cons x xs ih =>
    intro u
    by_cases hc : strLt x.path u.path = true
    · have hs : pickMin u (x :: xs) = pickMin x xs := by
        simp [pickMin, List.foldl_cons, hc]
      rcases ih x with h | h
      · exact Or.inr (by rw [hs, h]; exact List.mem_cons_self x xs)
      · exact Or.inr (by rw [hs]; exact List.mem_cons_of_mem x h)
    · have hs : pickMin u (x :: xs) = pickMin u xs := by
        simp [pickMin, List.foldl_cons, hc]
      rcases ih u with h | h
      · exact Or.inl (by rw [hs, h])
      · exact Or.inr (by rw [hs]; exact List.mem_cons_of_mem x h)

/-- Character comparison is asymmetric. -/
theorem chLt_asymm {a b : Char} (h : chLt a b = true) : chLt b a = false := by
  unfold chLt at *
  simp at *
  omega

/-- Character comparison is irreflexive. -/
theorem chLt_irrefl (a : Char) : chLt a a = false := by
  unfold chLt
  simp

/-- Lexicographic character-list comparison is asymmetric. -/
theorem lexLt_asymm : ∀ {as bs : List Char}, lexLt as bs = true → lexLt bs as = false := by
  intro as
  induction as with
  | nil =>
    intro bs h
    cases bs with
    | nil => simp [lexLt] at h
    | cons b bs => rfl
  | cons a as ih =>
    intro bs h
    cases bs with
    | nil => simp [lexLt] at h
    | cons b bs =>
      simp only [lexLt, Bool.or_eq_true, Bool.and_eq_true, beq_iff_eq] at h
      simp only [lexLt, Bool.or_eq_false_iff, Bool.and_eq_false_iff]
      rcases h with h | ⟨hab, h⟩
      · refine ⟨chLt_asymm h, Or.inl ?_⟩
        have : ¬ b = a := by
          intro hba
          rw [hba] at h
          rw [chLt_irrefl] at h
          exact Bool.false_ne_true h
        simp [this]
      · subst hab
        exact ⟨chLt_irrefl a, Or.inr (ih h)⟩

/-- String comparison is asymmetric. -/
theorem strLt_asymm {a b : String} (h : strLt a b = true) : strLt b a = false :=
  lexLt_asymm h

/-- A successful path lookup returns the identity of a store member. -/
theorem lookupPath_mem (np : List Resource) (p : String) (u : URI)
    (h : lookupPath np p = some u) : ∃ r ∈ np, r.uri = u := by
  unfold lookupPath at h
  split at h
  next r hf =>
    exact ⟨r, List.mem_of_find?_eq_some hf, Option.some.inj h⟩
  next hf =>
    split at h
    · exact absurd h (by simp)
    · rcases Option.map_eq_some'.mp h with ⟨r, hf2, hru⟩
      exact ⟨r, List.mem_of_find?_eq_some hf2, hru⟩

/-- Bare-key resolution returns a store member's identity or the slug
placeholder. -/
theorem resolveKey_mem_or_ph (np : List Resource) (slug : String) :
    (∃ r ∈ np, resolveKey np slug = r.uri) ∨
      resolveKey np slug = placeholderUri slug := by
  rcases hm : (np.filter (fun r => suffixMatch slug r.uri.path)).map Resource.uri
    with _ | ⟨u, us⟩
  · right; unfold resolveKey; rw [hm]
  · left
    have hmem : pickMin u us ∈ u :: us := by
      rcases pickMin_mem us u with h | h
      · rw [h]; exact List.mem_cons_self u us
      · exact List.mem_cons_of_mem u h
    rw [← hm] at hmem
    rcases List.mem_map.mp hmem with ⟨r, hr, hru⟩
    refine ⟨r, List.mem_of_mem_filter hr, ?_⟩
    unfold resolveKey
    rw [hm]
    exact hru.symm

/-- Path-reference resolution returns a store member's identity or a
placeholder identity. -/
theorem resolvePathRef_mem_or_ph (np : List Resource) (base : List String)
    (ref : String) :
    (∃ r ∈ np, resolvePathRef np base ref = r.uri) ∨
      (resolvePathRef np base ref).scheme = "placeholder" := by
  cases hl : lookupPath np (resolvedPathOf base ref) with
  | some u =>
    left
    rcases lookupPath_mem np _ u hl with ⟨r, hr, hru⟩
    exact ⟨r, hr, by unfold resolvePathRef; rw [hl, hru]⟩
  | none =>
    right
    unfold resolvePathRef
    rw [hl]
    rfl

/-- Reference resolution returns a store member's identity or a placeholder
identity. -/
theorem resolveRef_mem_or_ph (np : List Resource) (src : Resource) (ref : String) :
    (∃ r ∈ np, resolveRef np src ref = r.uri) ∨
      (resolveRef np src ref).scheme = "placeholder" := by
  unfold resolveRef
  cases classify ref with
  | absolute => exact resolvePathRef_mem_or_ph np [] ref
  | relative => exact resolvePathRef_mem_or_ph np (dirSegsOf src.uri.path) ref
  | key =>
    rcases resolveKey_mem_or_ph np ref with ⟨r, hr, h⟩ | h
    · exact Or.inl ⟨r, hr, h⟩
    · exact Or.inr (by rw [h]; rfl)

/-- Raw-link resolution returns a store member's identity or a placeholder
identity. -/
theorem resolve_mem_or_ph (np : List Resource) (src : Resource) (l : RawLink) :
    (∃ r ∈ np, resolve np src l = r.uri) ∨
      (resolve np src l).scheme = "placeholder" := by
  cases l with
  | direct t lbl p => exact resolveRef_mem_or_ph np src t
  | wikilink slug p => exact resolveRef_mem_or_ph np src (wikiRef src slug)

/-- Existence is equivalent to the store holding a resource at the identity. -/
theorem wsExists_iff (ws : FoamWorkspace) (u : URI) :
    wsExists ws u = true ↔ ∃ x ∈ ws.resources, x.uri = u := by
  unfold wsExists wsFind
  rw [List.find?_isSome]
  simp

/-- A `get` succeeds exactly when the identity exists. -/
theorem isOkE_wsGet (ws : FoamWorkspace) (u : URI) :
    isOkE (wsGet ws u) = wsExists ws u := by
  unfold isOkE wsGet wsExists
  cases wsFind ws u <;> rfl

/-- `npRes` distributes over append. -/
theorem npRes_append (a b : List Resource) : npRes (a ++ b) = npRes a ++ npRes b :=
  List.filter_append a b

/-- `npRes` is idempotent. -/
theorem npRes_npRes (l : List Resource) : npRes (npRes l) = npRes l := by
  simp [npRes, List.filter_filter]

/-- Materialised placeholders contribute no real resources. -/
theorem npRes_phMap (ts : List URI) :
    npRes (ts.map (fun u => (⟨u, ResData.placeholder⟩ : Resource))) = [] := by
  induction ts with
  | nil => rfl
  | cons t ts ih => simp [npRes, List.filter_cons, Resource.isReal, ih]

/-- A rebuild leaves the real part of the store unchanged. -/
theorem npRes_resolveState (ws : FoamWorkspace) :
    npRes (resolveLinksState ws).resources = npRes ws.resources := by
  simp [resolveLinksState, npRes_append, npRes_npRes, npRes_phMap]

/-- Rebuild output is determined by the real part of the store. -/
theorem resolveState_congr {a b : FoamWorkspace}
    (h : npRes a.resources = npRes b.resources) :
    resolveLinksState a = resolveLinksState b := by
  simp [resolveLinksState, h]

/-- `npRes` commutes with filtering. -/
theorem npRes_filter (p : Resource → Bool) (l : List Resource) :
    npRes (l.filter p) = (npRes l).filter p := by
  simp [npRes, List.filter_filter, Bool.and_comm]

/-- Mutations act on the real part of the store. -/
theorem npRes_applyMut (ws : FoamWorkspace) (m : Mut) :
    npRes (applyMut ws m).resources = applyMutNp (npRes ws.resources) m := by
  cases m with
  | setR r =>
    show npRes (ws.resources.filter _ ++ [r]) = _
    rw [npRes_append, npRes_filter]
    by_cases hr : r.isReal = true <;>
      simp [applyMutNp, npRes, List.filter_cons, hr]
  | delR u =>
    show npRes (ws.resources.filter _) = _
    rw [npRes_filter]
    rfl

/-- Folding mutations acts on the real part of the store. -/
theorem npRes_foldl (ms : List Mut) :
    ∀ ws : FoamWorkspace,
      npRes ((ms.foldl applyMut ws).resources) =
        ms.foldl applyMutNp (npRes ws.resources) := by
  induction ms with
  | nil => intro ws; rfl
  | cons m ms ih =>
    intro ws
    rw [List.foldl_cons, List.foldl_cons, ih, npRes_applyMut]

/-- The change monitor's fold equals one final rebuild over the same
mutations. -/
theorem monitored_foldl_eq (ms : List Mut) :
    ∀ ws : FoamWorkspace,
      ms.foldl monitoredStep (resolveLinksState ws) =
        resolveLinksState (ms.foldl applyMut ws) := by
  induction ms with
  | nil => intro ws; rfl
  | cons m ms ih =>
    intro ws
    show ms.foldl monitoredStep
        (resolveLinksState (applyMut (resolveLinksState ws) m)) =
      resolveLinksState ((m :: ms).foldl applyMut ws)
    rw [ih, List.foldl_cons]
    apply resolveState_congr
    rw [npRes_foldl, npRes_foldl, npRes_applyMut, npRes_applyMut,
      npRes_resolveState]

/-! ### Claim theorems -/

/-- C1 (counterexample): in the ambiguity scenario — note A at
`/path/to/page-a.md` with bare wikilink slug `page-b`, notes B1 at
`/path/to/another/page-b.md` and B2 at `/path/to/more/page-b.md`, full
rebuild — the proposition that `links_from(A)` is the empty sequence is
false, refuting the claim that an ambiguous bare-key slug resolves to no
target. -/
theorem c1_links_not_empty :
    (getLinks c1ws (fileUri "/path/to/page-a.md") = []) = False :=
  eq_false (by decide)

/-- C1 (amended): the ambiguous bare slug resolves to the lexicographically
smallest candidate path, so `links_from(A) = [/path/to/another/page-b.md]` and
exactly one Connection with source A exists; the path-qualified slug
`./more/page-b` resolves uniquely to B2. -/
theorem c1_ambiguous_resolves_alphabetically :
    getLinks c1ws (fileUri "/path/to/page-a.md") =
      [fileUri "/path/to/another/page-b.md"] ∧
    getAllConnections c1ws =
      [⟨fileUri "/path/to/page-a.md", fileUri "/path/to/another/page-b.md"⟩] ∧
    getLinks c1wsQ (fileUri "/path/to/page-a.md") =
      [fileUri "/path/to/more/page-b.md"] := by decide

/-- C2: at the failing input — two backlinks from one source at positions
(line 1, column 5) and (line 2, column 1) — the per-source group produced by
the top-level `getChildren` is sorted by `isBefore`, which compares start
columns before start lines, so the link at (2,1) precedes the link at (1,5):
column-major order, diverging from the claimed line-ascending-then-column
order. -/
theorem c2_group_sorted_column_major :
    backlinkGroups [c2src] c2conns (some (fileUri "/t.md")) (fun _ => true) =
      [(c2src,
        [⟨fileUri "/s.md", fileUri "/t.md", ⟨2, 1⟩⟩,
         ⟨fileUri "/s.md", fileUri "/t.md", ⟨1, 5⟩⟩])] := by decide

/-- C3: monitored/unmonitored equivalence — for every initial workspace and
every sequence of set/delete mutations, the monitored run (initial rebuild,
then a rebuild after each mutation) ends in exactly the graph state of the
unmonitored run that applies all mutations and rebuilds once at the end:
equal states, hence identical connection sets, identical placeholder sets,
and identical `links_from`/`links_to` answers at every identity. -/
theorem c3_monitored_equivalence (ws0 : FoamWorkspace) (ms : List Mut) :
    ms.foldl monitoredStep (resolveLinksState ws0) =
      resolveLinksState (ms.foldl applyMut ws0) ∧
    (ms.foldl monitoredStep (resolveLinksState ws0)).connections =
      (resolveLinksState (ms.foldl applyMut ws0)).connections ∧
    placeholdersOf (ms.foldl monitoredStep (resolveLinksState ws0)) =
      placeholdersOf (resolveLinksState (ms.foldl applyMut ws0)) ∧
    ∀ u : URI,
      getLinks (ms.foldl monitoredStep (resolveLinksState ws0)) u =
        getLinks (resolveLinksState (ms.foldl applyMut ws0)) u ∧
      getBacklinks (ms.foldl monitoredStep (resolveLinksState ws0)) u =
        getBacklinks (resolveLinksState (ms.foldl applyMut ws0)) u := by
  have h := monitored_foldl_eq ms ws0
  exact ⟨h, by rw [h], by rw [h], fun u => ⟨by rw [h], by rw [h]⟩⟩

/-- C4: bare-key tie-breaking is insertion-order independent — for a source
note at path `n` carrying the bare slug `g`, and two attachments at paths `a`
and `b` that both suffix-match `g` (the note's own path does not), with `a`
lexicographically smaller than `b`, a rebuild resolves the slug to `a`
whether `a` was inserted before or after `b`. -/
theorem c4_tiebreak_insertion_order (n a b g : String)
    (hga : suffixMatch g a = true) (hgb : suffixMatch g b = true)
    (hgn : suffixMatch g n = false) (hk : classify g = RefKind.key)
    (hab : strLt a b = true) (hna : n ≠ a) (hnb : n ≠ b) (haneb : a ≠ b) :
    getLinks
        (resolveLinksState
          (setW (setW (setW emptyWs (mkNote n [wl g] [])) (mkAtt a)) (mkAtt b)))
        (fileUri n) = [fileUri a] ∧
    getLinks
        (resolveLinksState
          (setW (setW (setW emptyWs (mkNote n [wl g] [])) (mkAtt b)) (mkAtt a)))
        (fileUri n) = [fileUri a] := by
  have hba : strLt b a = false := strLt_asymm hab
  constructor <;>
    simp [setW, emptyWs, mkNote, mkAtt, fileUri, wl, resolveLinksState, npRes,
      Resource.isReal, connsOf, Resource.links, resolve, wikiRef, lookupDef,
      Resource.defs, resolveRef, hk, resolveKey, List.filter_cons,
      hga, hgb, hgn, pickMin, List.foldl_cons, List.foldl_nil, hab, hba,
      getLinks, hna, hnb, haneb, Ne.symm hna, Ne.symm hnb, Ne.symm haneb]

/-- C5: placeholder invariant — immediately after any full rebuild, every
connection's target is resolvable: `exists` holds and `get` succeeds, the
target being either a real resource's identity or a placeholder materialised
by the same rebuild. -/
theorem c5_placeholder_invariant (ws : FoamWorkspace) (c : Connection)
    (h : c ∈ (resolveLinksState ws).connections) :
    wsExists (resolveLinksState ws) c.target = true ∧
    isOkE (wsGet (resolveLinksState ws) c.target) = true := by
  have hex : wsExists (resolveLinksState ws) c.target = true := by
    rcases List.mem_flatMap.mp h with ⟨r, hr, hc⟩
    rcases List.mem_map.mp hc with ⟨l, _, hcl⟩
    have htgt : c.target = resolve (npRes ws.resources) r l := by rw [← hcl]
    rcases resolve_mem_or_ph (npRes ws.resources) r l with ⟨r2, hr2, he⟩ | hph
    · exact (wsExists_iff _ _).mpr
        ⟨r2, List.mem_append_left _ hr2, by rw [htgt, he]⟩
    · refine (wsExists_iff _ _).mpr
        ⟨⟨c.target, ResData.placeholder⟩, List.mem_append_right _ ?_, rfl⟩
      refine List.mem_map.mpr ⟨c.target, ?_, rfl⟩
      refine mem_dedupKeys.mpr (List.mem_filterMap.mpr ⟨c, h, ?_⟩)
      have : (c.target.scheme == "placeholder") = true := by
        rw [htgt]; exact beq_iff_eq.mpr hph
      rw [this]
      rfl
  exact ⟨hex, by rw [isOkE_wsGet, hex]⟩

/-- C6: placeholder retirement — after a rebuild, a placeholder identity that
no connection targets is absent from the store (given that real resources do
not use the reserved `placeholder` scheme), so `find` returns none and `get`
fails with `NotFound`. -/
theorem c6_placeholder_retirement (ws : FoamWorkspace) (u : URI)
    (hsch : ∀ r ∈ ws.resources, r.isReal = true → r.uri.scheme ≠ "placeholder")
    (hu : u.scheme = "placeholder")
    (hnoref : ∀ c ∈ (resolveLinksState ws).connections, c.target ≠ u) :
    wsFind (resolveLinksState ws) u = none ∧
    wsGet (resolveLinksState ws) u = Except.error WsError.notFound := by
  have hf : wsFind (resolveLinksState ws) u = none := by
    refine List.find?_eq_none.mpr ?_
    intro x hx
    rcases List.mem_append.mp hx with hx | hx
    · rcases List.mem_filter.mp hx with ⟨hxs, hxr⟩
      have := hsch x hxs hxr
      simp only [beq_iff_eq]
      intro hxe
      exact this (by rw [hxe, hu])
    · rcases List.mem_map.mp hx with ⟨t, ht, hxt⟩
      rcases List.mem_filterMap.mp (mem_dedupKeys.mp ht) with ⟨c, hc, hct⟩
      have hcu : c.target = t := by
        by_cases hs : (c.target.scheme == "placeholder") = true
        · rw [hs] at hct; exact Option.some.inj hct
        · rw [Bool.not_eq_true] at hs; rw [hs] at hct; cases hct
      have htu : t ≠ u := hcu ▸ hnoref c hc
      simp only [beq_iff_eq]
      intro hxe
      have hxu : x.uri = t := by rw [← hxt]
      exact htu (by rw [← hxu, hxe])
  exact ⟨hf, by unfold wsGet; rw [hf]⟩

/-- C7: wikilink definition override — when the owning note has a definition
whose label equals the wikilink's slug and whose url classifies as a path
reference (relative or absolute), resolution substitutes the url and resolves
it as that kind of path — a relative url against the note's containing
directory, an absolute url against the root: if a real resource sits at the
resolved path the link targets that resource's identity, and if no resource
sits at the resolved path nor at it with the default `.md` extension, the
link targets a placeholder at the resolved path — a definition does not
guarantee existence. -/
theorem c7_definition_override (np : List Resource) (src : Resource)
    (g url : String) (p0 : LinkPos)
    (h1 : lookupDef src g = some url)
    (h2 : classify url = RefKind.relative ∨ classify url = RefKind.absolute) :
    ((∃ r ∈ np, r.uri.path = resolvedPathOf (refBase src (classify url)) url) →
      ∃ r ∈ np, resolve np src (RawLink.wikilink g p0) = r.uri ∧
        r.uri.path = resolvedPathOf (refBase src (classify url)) url) ∧
    ((∀ r ∈ np, r.uri.path ≠ resolvedPathOf (refBase src (classify url)) url ∧
        r.uri.path ≠ resolvedPathOf (refBase src (classify url)) url ++ ".md") →
      resolve np src (RawLink.wikilink g p0) =
        placeholderUri (resolvedPathOf (refBase src (classify url)) url)) := by
  have hres : resolve np src (RawLink.wikilink g p0) =
      resolvePathRef np (refBase src (classify url)) url := by
    rcases h2 with h2 | h2 <;>
      simp only [resolve, wikiRef, h1, resolveRef, h2, refBase]
  constructor
  · rintro ⟨r, hr, hp⟩
    have hsome : (np.find? (fun r => r.uri.path ==
        resolvedPathOf (refBase src (classify url)) url)).isSome = true :=
      List.find?_isSome.mpr ⟨r, hr, by simp [hp]⟩
    rcases Option.isSome_iff_exists.mp hsome with ⟨r2, hf⟩
    have hr2p : r2.uri.path = resolvedPathOf (refBase src (classify url)) url := by
      have := List.find?_some hf
      simpa using this
    refine ⟨r2, List.mem_of_find?_eq_some hf, ?_, hr2p⟩
    rw [hres]
    unfold resolvePathRef lookupPath
    rw [hf]
  · intro h4
    have hf1 : np.find? (fun r => r.uri.path ==
        resolvedPathOf (refBase src (classify url)) url) = none :=
      List.find?_eq_none.mpr (fun x hx => by simp [(h4 x hx).1])
    have hf2 : np.find? (fun r => r.uri.path ==
        resolvedPathOf (refBase src (classify url)) url ++ ".md") = none :=
      List.find?_eq_none.mpr (fun x hx => by simp [(h4 x hx).2])
    rw [hres]
    unfold resolvePathRef lookupPath
    rw [hf1, hf2]
    simp

/-- C7 witness: the override theorem applied at both shipped scenarios — the
relative case, where note `/somewhere/from/page-a.md` maps slug `page-b` to
`../to/page-b.md` and resolution targets the existing note
`/somewhere/to/page-b.md`; and the absolute case, where note
`/somewhere/page-a.md` maps slug `page-c` to `/path/to/page-c.md`, no
resource sits at that path, and resolution targets a placeholder there. -/
theorem c7_definition_override_witness :
    (lookupDef c7note "page-b" = some "../to/page-b.md" ∧
      classify "../to/page-b.md" = RefKind.relative ∧
      (∃ r ∈ c7np, resolve c7np c7note (RawLink.wikilink "page-b" ⟨1, 1⟩) = r.uri ∧
        r.uri.path =
          resolvedPathOf (refBase c7note (classify "../to/page-b.md"))
            "../to/page-b.md")) ∧
    (lookupDef c7noteAbs "page-c" = some "/path/to/page-c.md" ∧
      classify "/path/to/page-c.md" = RefKind.absolute ∧
      resolve c7npAbs c7noteAbs (RawLink.wikilink "page-c" ⟨1, 1⟩) =
        placeholderUri
          (resolvedPathOf (refBase c7noteAbs (classify "/path/to/page-c.md"))
            "/path/to/page-c.md")) :=
  ⟨⟨by decide, by decide,
      (c7_definition_override c7np c7note "page-b" "../to/page-b.md" ⟨1, 1⟩
          (by decide) (Or.inl (by decide))).1 (by decide)⟩,
   ⟨by decide, by decide,
      (c7_definition_override c7npAbs c7noteAbs "page-c" "/path/to/page-c.md" ⟨1, 1⟩
          (by decide) (Or.inr (by decide))).2 (by decide)⟩⟩

/-- C8: agreement of the three lookups on an absent identity — when no store
resource carries the identity, `find` returns none, `get` fails with
`NotFound`, and `exists` is false. -/
theorem c8_absent_lookup_agreement (ws : FoamWorkspace) (u : URI)
    (h : ∀ r ∈ ws.resources, r.uri ≠ u) :
    wsFind ws u = none ∧
    wsGet ws u = Except.error WsError.notFound ∧
    wsExists ws u = false := by
  have hf : wsFind ws u = none :=
    List.find?_eq_none.mpr (fun x hx => by simp [h x hx])
  exact ⟨hf, by unfold wsGet; rw [hf], by unfold wsExists; rw [hf]; rfl⟩

/-- C8 witness: the agreement theorem applied at the shipped scenario — a
store holding only `/path/to/page-a.md`, queried at
`/path/to/another/page-b.md`. -/
theorem c8_absent_lookup_agreement_witness :
    (∀ r ∈ c8store.resources, r.uri ≠ c8uri) ∧
    (wsFind c8store c8uri = none ∧
      wsGet c8store c8uri = Except.error WsError.notFound ∧
      wsExists c8store c8uri = false) :=
  ⟨by decide, c8_absent_lookup_agreement c8store c8uri (by decide)⟩

/-- C4 witness: the tie-break theorem applied at the shipped scenario — slug
`attachment-a` against attachments `/path/to/attachment-a.pdf` and
`/path/to/more/attachment-a.pdf`, under both insertion orders. -/
theorem c4_tiebreak_insertion_order_witness :
    suffixMatch "attachment-a" "/path/to/attachment-a.pdf" = true ∧
    suffixMatch "attachment-a" "/path/to/more/attachment-a.pdf" = true ∧
    suffixMatch "attachment-a" "/path/to/page-a.md" = false ∧
    classify "attachment-a" = RefKind.key ∧
    strLt "/path/to/attachment-a.pdf" "/path/to/more/attachment-a.pdf" = true ∧
    (getLinks
        (resolveLinksState (setW (setW (setW emptyWs
          (mkNote "/path/to/page-a.md" [wl "attachment-a"] []))
          (mkAtt "/path/to/attachment-a.pdf"))
          (mkAtt "/path/to/more/attachment-a.pdf")))
        (fileUri "/path/to/page-a.md") = [fileUri "/path/to/attachment-a.pdf"] ∧
      getLinks
        (resolveLinksState (setW (setW (setW emptyWs
          (mkNote "/path/to/page-a.md" [wl "attachment-a"] []))
          (mkAtt "/path/to/more/attachment-a.pdf"))
          (mkAtt "/path/to/attachment-a.pdf")))
        (fileUri "/path/to/page-a.md") = [fileUri "/path/to/attachment-a.pdf"]) :=
  ⟨by decide, by decide, by decide, by decide, by decide,
    c4_tiebreak_insertion_order "/path/to/page-a.md" "/path/to/attachment-a.pdf"
      "/path/to/more/attachment-a.pdf" "attachment-a" (by decide) (by decide)
      (by decide) (by decide) (by decide) (by decide) (by decide) (by decide)⟩

/-- C5 witness: the placeholder invariant applied at the shipped scenario —
the dangling slug `page-b` produces a connection whose placeholder target is
resolvable after the rebuild. -/
theorem c5_placeholder_invariant_witness :
    c5conn ∈ (resolveLinksState c5store).connections ∧
    (wsExists (resolveLinksState c5store) c5conn.target = true ∧
      isOkE (wsGet (resolveLinksState c5store) c5conn.target) = true) :=
  ⟨by decide, c5_placeholder_invariant c5store c5conn (by decide)⟩

/-- C6 witness: the retirement theorem applied at the shipped scenario —
after the linking note is replaced by a link-free version and rebuilt, the
placeholder `/path/to/another/page-b.md` is gone. -/
theorem c6_placeholder_retirement_witness :
    (∀ r ∈ c6store.resources, r.isReal = true → r.uri.scheme ≠ "placeholder") ∧
    c6ph.scheme = "placeholder" ∧
    (∀ c ∈ (resolveLinksState c6store).connections, c.target ≠ c6ph) ∧
    (wsFind (resolveLinksState c6store) c6ph = none ∧
      wsGet (resolveLinksState c6store) c6ph = Except.error WsError.notFound) :=
  ⟨by decide, by decide, by decide,
    c6_placeholder_retirement c6store c6ph (by decide) (by decide) (by decide)⟩

/-- C9: frame property of `set` in unmonitored mode — a `set` call leaves the
connection index unchanged, so `links_from` and `links_to` answer identically
before and after it for every identity; connections change only through
resolution. -/
theorem c9_set_frame (ws : FoamWorkspace) (r : Resource) (u : URI) :
    getAllConnections (setW ws r) = getAllConnections ws ∧
    getLinks (setW ws r) u = getLinks ws u ∧
    getBacklinks (setW ws r) u = getBacklinks ws u :=
  ⟨rfl, rfl, rfl⟩

/-- C10: the top-level branch of `getChildren` (no parent item) returns the
empty list whenever the provider's target is unset or rejected by the data
store's `isMatch`, for every workspace and connection state; the embedding is
a total function, so no failure occurs. -/
theorem c10_top_level_guard (resources : List Resource) (conns : List ConnB)
    (target : Option URI) (isMatch : URI → Bool)
    (h : target = none ∨ ∃ u, target = some u ∧ isMatch u = false) :
    backlinkGroups resources conns target isMatch = [] := by
  rcases h with h | ⟨u, ht, hm⟩
  · subst h; rfl
  · subst ht; simp [backlinkGroups, hm]

/-- C10 witness: the guard theorem applied at a concrete unset target. -/
theorem c10_top_level_guard_witness :
    ((none : Option URI) = none ∨
      ∃ u, (none : Option URI) = some u ∧ (fun _ : URI => false) u = false) ∧
    backlinkGroups [] [] none (fun _ : URI => false) = [] :=
  ⟨Or.inl rfl, c10_top_level_guard [] [] none (fun _ => false) (Or.inl rfl)⟩

end Foam
